import Mathlib

/-!
Shallow embedding of the clone-protocol core of `chirp/drivers/retevis_ha1g.py`
(checksum unit, packet codec, handshake negotiator, region transfer engine,
session controller), with theorems settling the frozen claims.

Bytes are modelled as `List Nat` (each element a byte value `< 256` wherever the
source produces one).  Fallible Python code is modelled with `Except Err`.
The serial device is modelled as an oracle: for request/response transfers a
function from the request packet to the raw response bytes, for the handshake
(whose request is constant) a function from the attempt number to the response.
-/

namespace Ha1g

/-- Python exceptions that can arise in the modelled code paths.
`radioReported`, `modelMismatch`, `pwdProtected`, `unknownComm` and
`exitRefused` are `errors.RadioError`s; `valueError`, `indexError` and
`unpackError` model `ValueError`, `IndexError` and `struct.error`. -/
inductive Err where
  | radioReported
  | modelMismatch
  | pwdProtected
  | unknownComm
  | exitRefused
  | valueError
  | indexError
  | unpackError
  deriving DecidableEq, Repr

/-- Serialization of a 16-bit value as 2 little-endian bytes (`struct.pack "<H"`). -/
def toLE2 (n : Nat) : List Nat := [n % 256, n / 256 % 256]

/-- The fixed 12-byte magic/version preamble `b"RDTP\x01\x00\x00\x00\x00\x00\x00\x00"`. -/
def magicBytes : List Nat := [82, 68, 84, 80, 1, 0, 0, 0, 0, 0, 0, 0]

/-- The inner 8-iteration loop of `calculate_crc16`: shift right, conditionally
xoring with the polynomial 0xA001, `k` times. -/
def crc16_inner : Nat → Nat → Nat
  | 0, crc => crc
  | k + 1, crc =>
      crc16_inner k (if crc &&& 1 = 1 then (crc >>> 1) ^^^ 0xA001 else crc >>> 1)

/-- The 16-bit CRC value computed by `calculate_crc16` before serialization:
register starts at 0, each byte is xored in and then processed by 8 inner
iterations. -/
def crc16val (buf : List Nat) : Nat :=
  buf.foldl (fun crc b => crc16_inner 8 (crc ^^^ b)) 0

/-- Source `calculate_crc16(buf)`: the CRC register serialized as 2 little-endian
bytes (`struct.pack "<H"`). -/
def calculate_crc16 (buf : List Nat) : List Nat := toLE2 (crc16val buf)

/-- Source `validate_packet(current_packet_Byte, chunk_size=1024)`.  Fails for length
≤ 13; computes the firmware-dependent length lower bound from bytes 12 and 13;
fails when `byteLen - 17` (true integer subtraction, as in Python) is below it;
otherwise recomputes the CRC over all bytes but the last 3 and compares it with
the two bytes `[-3:-1]` preceding the sentinel. -/
def validate_packet (b : List Nat) (chunk_size : Nat := 1024) : Bool :=
  let byteLen := b.length
  if byteLen ≤ 13 then false
  else
    let packet_count : Nat := if chunk_size > 255 then 256 else chunk_size + 1
    let data_len : Int :=
      (if b.getD 12 0 > 6 then (b.getD 12 0 : Int) - 6 else 0) +
        (b.getD 13 0 : Int) * (packet_count : Int)
    if (byteLen : Int) - 17 < data_len then false
    else decide ((b.drop (byteLen - 3)).take 2 = calculate_crc16 (b.take (byteLen - 3)))

/-- The `data_part` local of `get_send_packet_bytes`: `struct.pack
"<12sHBBHH{n}s"` of the magic preamble, the declared length `data_len + 6`, the
masked type/code bytes and the two masked 16-bit fields, then the payload.
The declared-length field is reduced mod 2^16 (in the source `struct.pack "<H"`
would instead raise for `data_len + 6 > 0xFFFF`, which no caller can produce:
payloads are at most one 1024-byte page). -/
def sendDataPart (data_type packet_index data_code packet_count : Nat)
    (data_buffer : List Nat) : List Nat :=
  magicBytes ++ toLE2 ((data_buffer.length + 6) % 65536) ++
    [data_type % 256, data_code % 256] ++
    toLE2 (packet_index % 65536) ++ toLE2 (packet_count % 65536) ++ data_buffer

/-- Source `get_send_packet_bytes(data_type, packet_index, data_code, packet_count,
data_buffer)`: the packed `data_part` followed by its CRC bytes and the 0xFF
sentinel. -/
def get_send_packet_bytes (data_type packet_index data_code packet_count : Nat)
    (data_buffer : List Nat) : List Nat :=
  let data_part := sendDataPart data_type packet_index data_code packet_count data_buffer
  data_part ++ calculate_crc16 data_part ++ [255]

/-- Source `get_handshake_bytes(currentModel)`: magic preamble, little-endian declared
length `len(prefix) + len(model_bytes) + padding_len`, the 6-byte prefix
`b"\x00\x00\x00\x00\x01\x00"`, the ASCII model bytes, zero padding of length
`41 - len(model_bytes)`, then CRC bytes and sentinel.  `none` models the
`struct.error` the source raises when the model name exceeds 41 bytes (the
padding count in the format string becomes negative). -/
def get_handshake_bytes (model_bytes : List Nat) : Option (List Nat) :=
  if model_bytes.length ≤ 41 then
    let pfx : List Nat := [0, 0, 0, 0, 1, 0]
    let padding_len := 41 - model_bytes.length
    let padding := List.replicate padding_len 0
    let data_len := pfx.length + model_bytes.length + padding_len
    let packet := magicBytes ++ toLE2 data_len ++ pfx ++ model_bytes ++ padding
    some (packet ++ calculate_crc16 packet ++ [255])
  else none

/-- The four handshake outcomes of `class HandshakeStatuses(Enum)`. -/
inductive HandshakeStatuses where
  | Normal
  | Wrong
  | PwdWrong
  | RadioWrong
  deriving DecidableEq, Repr

/-- Source `handshake_handle_connect_event(self, dataByte)`: if bytes `[14:16]` equal
`b"\x00\x01"`, inspect byte 20 (an `IndexError`, modelled as `Err.indexError`,
when the response has at most 20 bytes), returning `PwdWrong` when it is 1 and
otherwise comparing bytes `[20 : 20+len(model)]` with the expected model bytes;
any other `[14:16]` value is `Wrong`. -/
def handshake_handle_connect_event (model : List Nat) (dataByte : List Nat) :
    Except Err HandshakeStatuses :=
  if (dataByte.drop 14).take 2 = [0, 1] then
    if _h : 20 < dataByte.length then
      if dataByte.getD 20 0 ≠ 1 then
        if (dataByte.drop 20).take model.length = model then .ok .Normal
        else .ok .RadioWrong
      else .ok .PwdWrong
    else .error .indexError
  else .ok .Wrong

/-- The attempt loop of `handshake(self, serial)`: up to 15 exchanges of the
handshake packet, breaking at the first response that passes
`validate_packet`; returns the last response read together with the number of
send attempts made.  The device is an oracle from the attempt number to the
response bytes (the request is the same every time). -/
def handshakeRun (devA : Nat → List Nat) : Nat → Nat → List Nat → List Nat × Nat
  | 0, k, lastResp => (lastResp, k)
  | n + 1, k, _ =>
      let resp := devA k
      if validate_packet resp then (resp, k + 1)
      else handshakeRun devA n (k + 1) resp

/-- Source `handshake(self, serial)`: run the 15-attempt loop and classify the final
response; also reports the number of send attempts made. -/
def handshake (model : List Nat) (devA : Nat → List Nat) :
    Except Err HandshakeStatuses × Nat :=
  let (dataBytes, attempts) := handshakeRun devA 15 0 []
  (handshake_handle_connect_event model dataBytes, attempts)

/-- A request/response serial device: the raw bytes read back after writing a
given request packet. -/
def Device : Type := List Nat → List Nat

/-- Source `exchange_block_with_radio(send_byte, serial_conn, chunk_size)`: write the
packet, read the response, validate it (the source validates with the default
`chunk_size=1024` regardless of the read size). -/
def exchange_block_with_radio (dev : Device) (send_byte : List Nat) :
    Bool × List Nat :=
  let new_bytes := dev send_byte
  (validate_packet new_bytes, new_bytes)

/-- The memory-region catalogue `class MemoryRegions(Enum)`. -/
inductive MemoryRegions where
  | radioHead
  | radioInfo
  | radioVer
  | settingData
  | zoneData
  | channelData
  | scanData
  | vfoScanData
  | alarmData
  | dTMFData
  deriving DecidableEq, Repr

/-- The `Enum` value of each region. -/
def MemoryRegions.value : MemoryRegions → Nat
  | .radioHead => 2
  | .radioInfo => 3
  | .radioVer => 4
  | .settingData => 6
  | .zoneData => 7
  | .channelData => 8
  | .scanData => 11
  | .vfoScanData => 12
  | .alarmData => 13
  | .dTMFData => 15

/-- Source `MEMORY_REGIONS_RANGES`: (start address, length) of each region in the
device image. -/
def MEMORY_REGIONS_RANGES : MemoryRegions → Nat × Nat
  | .radioHead => (0, 14)
  | .radioInfo => (14, 68)
  | .radioVer => (82, 10)
  | .settingData => (92, 100)
  | .zoneData => (192, 3202)
  | .channelData => (3394, 43136)
  | .scanData => (46530, 3618)
  | .vfoScanData => (50148, 68)
  | .alarmData => (50244, 258)
  | .dTMFData => (51272, 842)

/-- Iteration order of `for item in MemoryRegions` (Enum definition order). -/
def regionOrder : List MemoryRegions :=
  [.radioHead, .radioInfo, .radioVer, .settingData, .zoneData,
   .channelData, .scanData, .vfoScanData, .alarmData, .dTMFData]

/-- Source `HA1G._memsize = 0xD868`. -/
def memsize : Nat := 0xD868

/-- Source `HA1G.write_page_len = 1024`. -/
def write_page_len : Nat := 1024

/-- Python slice assignment `xs[start:start+len(d)] = d` on a list. -/
def setSeg (xs : List Nat) (start : Nat) (d : List Nat) : List Nat :=
  xs.take start ++ d ++ xs.drop (start + d.length)

/-- The contiguous slice `xs[s:s+l]`. -/
def seg (xs : List Nat) (s l : Nat) : List Nat := (xs.drop s).take l

/-- Source `read_item_handle_connect_event(all_bytes, item_bytes, item)`: copy
`item_bytes[:min(len(item_bytes), length)]` into the image at the region's
start address. -/
def read_item_handle_connect_event (all_bytes : List Nat)
    (item_bytes : List Nat) (item : MemoryRegions) : List Nat :=
  let (start, length) := MEMORY_REGIONS_RANGES item
  setSeg all_bytes start (item_bytes.take length)

/-- Payload slice `new_data_bytes[20:-3]` of a response. -/
def respPayload (resp : List Nat) : List Nat :=
  (resp.take (resp.length - 3)).drop 20

/-- The per-response failure test of the transfer loops:
`not flag or (len(new_data_bytes) > 14 and new_data_bytes[14] != item)`. -/
def respFails (flag : Bool) (resp : List Nat) (item : Nat) : Bool :=
  !flag || (decide (14 < resp.length) && decide (resp.getD 14 0 ≠ item))

/-- The `while packet_index < packet_count` continuation of
`get_read_current_packet_bytes` after the first exchange fixed the advertised
packet count: `n` remaining iterations, current payload index `idx`. -/
def readPagesAux (dev : Device) (item : Nat) :
    Nat → Nat → List Nat → Except Err (List Nat)
  | 0, _, acc => .ok acc
  | n + 1, idx, acc =>
      let pkt := get_send_packet_bytes item 0 2 1 (toLE2 idx)
      let (flag, resp) := exchange_block_with_radio dev pkt
      if respFails flag resp item then .error .radioReported
      else readPagesAux dev item n (idx + 1) (acc ++ respPayload resp)

/-- Source `get_read_current_packet_bytes(self, item, serial, status)`: request packet
index 0 (payload `packet_index.to_bytes(2, "little")`, direction code 2), fail
on validation failure or region-id-echo mismatch, unpack the advertised total
count from response bytes `[18:20]` (a `struct.error` when the response is
shorter than 20 bytes), then iterate the remaining `count - 1` indices
accumulating each response's `[20:-3]` payload. -/
def get_read_current_packet_bytes (dev : Device) (item : Nat) :
    Except Err (List Nat) :=
  let pkt := get_send_packet_bytes item 0 2 1 (toLE2 0)
  let (flag, resp) := exchange_block_with_radio dev pkt
  if respFails flag resp item then .error .radioReported
  else if resp.length < 20 then .error .unpackError
  else
    let packet_count := resp.getD 18 0 + 256 * resp.getD 19 0
    readPagesAux dev item (packet_count - 1) 1 (respPayload resp)

/-- The region loop of `read_items(self, serial)`: each region's read is
attempted; a raised error is caught and the loop continues; a successful
nonempty result is copied into the image. -/
def readGo (dev : Device) : List MemoryRegions → List Nat → List Nat
  | [], acc => acc
  | r :: rs, acc =>
      match get_read_current_packet_bytes dev r.value with
      | .error _ => readGo dev rs acc
      | .ok item_bytes =>
          if item_bytes = [] then readGo dev rs acc
          else readGo dev rs (read_item_handle_connect_event acc item_bytes r)

/-- Source `read_items(self, serial)`: start from a zero image of `_memsize` bytes and
process every region in catalogue order. -/
def read_items (dev : Device) : List Nat :=
  readGo dev regionOrder (List.replicate memsize 0)

/-- Source `get_write_item_bytes(all_bytes, item)`: the image slice
`all_bytes[start:start+length]` of the region. -/
def get_write_item_bytes (all_bytes : List Nat) (item : MemoryRegions) :
    List Nat :=
  let (start, length) := MEMORY_REGIONS_RANGES item
  seg all_bytes start length

/-- Source `math.ceil(len(item_Bytes) / packet_len)` with `packet_len = 1024`. -/
def pageCount (item_Bytes : List Nat) : Nat :=
  (item_Bytes.length + (write_page_len - 1)) / write_page_len

/-- Page `i` of the region bytes: `item_Bytes[i*packet_len : (i+1)*packet_len]`. -/
def pageSlice (item_Bytes : List Nat) (i : Nat) : List Nat :=
  (item_Bytes.drop (i * write_page_len)).take write_page_len

/-- The `for i in range(packet_count)` loop of `write_item_current_page_bytes`:
current page index `i`, `n` pages remaining; every sent packet is appended to
the log; a failed exchange raises immediately. -/
def writePagesGo (dev : Device) (item : Nat) (item_Bytes : List Nat)
    (packet_count : Nat) :
    Nat → Nat → List (List Nat) → Except Err Unit × List (List Nat)
  | _, 0, log => (.ok (), log)
  | i, n + 1, log =>
      let pkt := get_send_packet_bytes item i 0 packet_count (pageSlice item_Bytes i)
      let (flag, resp) := exchange_block_with_radio dev pkt
      let log' := log ++ [pkt]
      if respFails flag resp item then (.error .radioReported, log')
      else writePagesGo dev item item_Bytes packet_count (i + 1) n log'

/-- Source `write_item_current_page_bytes(self, serial, item_Bytes, item, status)`:
empty region bytes raise a `ValueError` at once; a zero page count returns
without sending; otherwise every page is sent in order with direction code 0
and the constant total page count. -/
def write_item_current_page_bytes (dev : Device) (item_Bytes : List Nat)
    (item : Nat) (log : List (List Nat)) :
    Except Err Unit × List (List Nat) :=
  if item_Bytes = [] then (.error .valueError, log)
  else
    let packet_count := pageCount item_Bytes
    if packet_count = 0 then (.ok (), log)
    else writePagesGo dev item item_Bytes packet_count 0 packet_count log

/-- The region loop of `write_items(self, serial)`: skip the four read-only
regions, write every other region's image slice, propagating the first error. -/
def writeGo (dev : Device) (image : List Nat) :
    List MemoryRegions → List (List Nat) → Except Err Unit × List (List Nat)
  | [], log => (.ok (), log)
  | r :: rs, log =>
      if r = .radioHead ∨ r = .radioInfo ∨ r = .radioVer ∨ r = .zoneData then
        writeGo dev image rs log
      else
        match write_item_current_page_bytes dev (get_write_item_bytes image r) r.value log with
        | (.error e, log') => (.error e, log')
        | (.ok _, log') => writeGo dev image rs log'

/-- Source `write_items(self, serial)` over the fixed catalogue, starting with an
empty send log. -/
def write_items (dev : Device) (image : List Nat) :
    Except Err Unit × List (List Nat) :=
  writeGo dev image regionOrder []

/-- The packet sent by `exit_programming_mode`: region id 111 (`reboot_sign`),
packet index 0, direction code 0, packet count 1, payload `b"\x00"`. -/
def exitPacket : List Nat := get_send_packet_bytes 111 0 0 1 [0]

/-- Source `exit_programming_mode(self)`: one fire-and-forget write of `exitPacket`;
if the transport write throws, the exception is logged and a
`RadioError("Radio refused to exit programming mode")` is raised.
`exitWriteFails` models whether the transport write throws. -/
def exit_programming_mode (exitWriteFails : Bool) : Except Err Unit :=
  if exitWriteFails then .error .exitRefused else .ok ()

/-- Python `try: body finally: fin` outcome semantics: an exception raised in
the `finally` block replaces the body's outcome (its return value or its
in-flight exception); otherwise the body's outcome stands. -/
def pyFinally {α : Type} (body : Except Err α) (fin : Except Err Unit) :
    Except Err α :=
  match fin with
  | .error e => .error e
  | .ok _ => body

/-- The `except errors.RadioError: raise / except Exception: raise
RadioError("Unknown error communicating with radio")` normalization of
`do_download` / `do_upload`. -/
def pyCatchAll (e : Err) : Err :=
  match e with
  | .radioReported | .modelMismatch | .pwdProtected
  | .unknownComm | .exitRefused => e
  | _ => .unknownComm

/-- The `try` body of `do_download(self)`: handshake, then on `Normal` a full
`read_items` download; `RadioWrong` and `PwdWrong` map through `error_map`;
any other status maps to the generic message; a classifier exception is
normalized by the catch-all handler. -/
def download_body (model : List Nat) (devA : Nat → List Nat) (dev : Device) :
    Except Err (List Nat) :=
  match handshake model devA with
  | (.error e, _) => .error (pyCatchAll e)
  | (.ok .Normal, _) => .ok (read_items dev)
  | (.ok .RadioWrong, _) => .error .modelMismatch
  | (.ok .PwdWrong, _) => .error .pwdProtected
  | (.ok .Wrong, _) => .error .unknownComm

/-- Source `do_download(self)`: the body inside Python `try/finally` with
`exit_programming_mode` as the `finally` step. -/
def do_download (model : List Nat) (devA : Nat → List Nat) (dev : Device)
    (exitWriteFails : Bool) : Except Err (List Nat) :=
  pyFinally (download_body model devA dev) (exit_programming_mode exitWriteFails)

/-- The `try` body of `do_upload(self)`: handshake, then on `Normal` a full
`write_items` upload whose errors are normalized by the catch-all handler. -/
def upload_body (model : List Nat) (devA : Nat → List Nat) (dev : Device)
    (image : List Nat) : Except Err Unit :=
  match handshake model devA with
  | (.error e, _) => .error (pyCatchAll e)
  | (.ok .Normal, _) =>
      match (write_items dev image).1 with
      | .error e => .error (pyCatchAll e)
      | .ok _ => .ok ()
  | (.ok .RadioWrong, _) => .error .modelMismatch
  | (.ok .PwdWrong, _) => .error .pwdProtected
  | (.ok .Wrong, _) => .error .unknownComm

/-- Source `do_upload(self)`: the body inside Python `try/finally` with
`exit_programming_mode` as the `finally` step. -/
def do_upload (model : List Nat) (devA : Nat → List Nat) (dev : Device)
    (image : List Nat) (exitWriteFails : Bool) : Except Err Unit :=
  pyFinally (upload_body model devA dev image) (exit_programming_mode exitWriteFails)

/-- Modelled from the spec's description of the checksum algorithm (§4.1):
one least-significant-bit-first CRC step with reflected polynomial 0xA001,
written with `% 2` and `/ 2` instead of the source's bit operations.  Used as
the independent formulation the code's inner loop is compared against. -/
def crcSpecStep (s : Nat) : Nat :=
  if s % 2 = 1 then s / 2 ^^^ 0xA001 else s / 2

/-- Modelled from the spec (§4.1): absorbing one byte = xor into the register,
then 8 LSB-first steps, no final xor. -/
def crcSpecByte (s b : Nat) : Nat := crcSpecStep^[8] (s ^^^ b)

/-- Flip bit `j` of the byte at position `pos`. -/
def flipBit (xs : List Nat) (pos j : Nat) : List Nat :=
  xs.set pos (xs.getD pos 0 ^^^ 2 ^ j)

/-- ASCII bytes of the model name `"HA1G"`. -/
def hModel : List Nat := [72, 65, 49, 71]

/-- ASCII bytes of `self.MODEL + " "`, the handshake request's model field. -/
def hModelSp : List Nat := [72, 65, 49, 71, 32]

/-- First 17 bytes of a crafted device response: declared-length bytes 0, echo
bytes `[14:16] = 0x00 0x01`. -/
def pkt20core : List Nat := [0, 0, 0, 0, 0, 0, 0, 0, 0, 0, 0, 0, 0, 0, 0, 1, 0]

/-- A 20-byte device response that passes `validate_packet` but is too short
for the classifier's byte-20 access. -/
def pkt20 : List Nat := pkt20core ++ calculate_crc16 pkt20core ++ [255]

/-- First 17 bytes of a crafted device response with echo bytes
`[14:16] = 0x00 0x02`. -/
def pktGarbledCore : List Nat := [0, 0, 0, 0, 0, 0, 0, 0, 0, 0, 0, 0, 0, 0, 0, 2, 0]

/-- A device response that passes `validate_packet` but classifies as `Wrong`
(the spec's Garbled). -/
def pktGarbled : List Nat := pktGarbledCore ++ calculate_crc16 pktGarbledCore ++ [255]

/-- First 24 bytes of a crafted device response: echo bytes
`[14:16] = 0x00 0x01`, byte 20 onwards the ASCII model name "HA1G". -/
def pktNormalCore : List Nat :=
  [0, 0, 0, 0, 0, 0, 0, 0, 0, 0, 0, 0, 0, 0, 0, 1, 0, 0, 0, 0, 72, 65, 49, 71]

/-- A 27-byte device response that passes `validate_packet` and classifies as
`Normal` against the HA1G model. -/
def pktNormal : List Nat := pktNormalCore ++ calculate_crc16 pktNormalCore ++ [255]

/-- A device that never answers (every read returns no bytes). -/
def devNull : Device := fun _ => []

/-- A handshake-phase device that never answers. -/
def devNullA : Nat → List Nat := fun _ => []

/-- Whether one upload exchange succeeds: the response to the request packet
passes validation and carries no mismatched region-id echo at byte 14. -/
def exchangeOk (dev : Device) (pr : List Nat × Nat) : Bool :=
  let resp := dev pr.1
  validate_packet resp && !(decide (14 < resp.length) && decide (resp.getD 14 0 ≠ pr.2))

/-- Reference form of the upload loop: walk a plan of (packet, region-id)
pairs, appending each sent packet to the log and stopping with a
communication-failure error at the first failed exchange. -/
def runPlan (dev : Device) :
    List (List Nat × Nat) → List (List Nat) → Except Err Unit × List (List Nat)
  | [], log => (.ok (), log)
  | pr :: rest, log =>
      if exchangeOk dev pr then runPlan dev rest (log ++ [pr.1])
      else (.error .radioReported, log ++ [pr.1])

/-- The packets (with their region id) that pages `i, i+1, ...` (`n` of them)
of a region's bytes are sent as. -/
def planPagesFrom (item : Nat) (item_Bytes : List Nat) (packet_count : Nat) :
    Nat → Nat → List (List Nat × Nat)
  | _, 0 => []
  | i, n + 1 =>
      (get_send_packet_bytes item i 0 packet_count (pageSlice item_Bytes i), item) ::
        planPagesFrom item item_Bytes packet_count (i + 1) n

/-- All packets one region's upload sends when every exchange succeeds. -/
def planRegion (image : List Nat) (r : MemoryRegions) : List (List Nat × Nat) :=
  let bs := get_write_item_bytes image r
  planPagesFrom r.value bs (pageCount bs) 0 (pageCount bs)

/-- The writable regions in upload order (catalogue order minus the four
skipped read-only regions). -/
def writableOrder : List MemoryRegions :=
  [.settingData, .channelData, .scanData, .vfoScanData, .alarmData, .dTMFData]

/-- Every packet a full upload of `image` sends when every exchange succeeds. -/
def uploadPlan (image : List Nat) : List (List Nat × Nat) :=
  writableOrder.flatMap (planRegion image)

/-- The Bool form of the upload skip test. -/
def skipTest (r : MemoryRegions) : Bool :=
  decide (r = MemoryRegions.radioHead) || decide (r = MemoryRegions.radioInfo) ||
    decide (r = MemoryRegions.radioVer) || decide (r = MemoryRegions.zoneData)

/-- Position `i` is safe for region `r` under device `dev`: either `r`'s read
fails, or `i` lies outside `r`'s catalogue range. -/
def stepSafe (dev : Device) (i : Nat) (r : MemoryRegions) : Prop :=
  (∃ e, get_read_current_packet_bytes dev r.value = .error e) ∨
    i < (MEMORY_REGIONS_RANGES r).1 ∨
    (MEMORY_REGIONS_RANGES r).1 + (MEMORY_REGIONS_RANGES r).2 ≤ i
end Ha1g

namespace Ha1g

set_option maxRecDepth 8000

theorem crc16_inner_eq_iterate : ∀ (k s : Nat), crc16_inner k s = crcSpecStep^[k] s := by
  intro k
  induction k with
  | zero => intro s; rfl
  | succ n ih =>
      intro s
      rw [crc16_inner, Function.iterate_succ_apply, ih]
      congr 1
      simp only [crcSpecStep, Nat.and_one_is_mod, Nat.shiftRight_one]

theorem crcSpecStep_lt {s : Nat} (h : s < 65536) : crcSpecStep s < 65536 := by
  unfold crcSpecStep
  split
  · have h1 : s / 2 < 2 ^ 16 := by omega
    have h2 : (0xA001 : Nat) < 2 ^ 16 := by norm_num
    have := Nat.xor_lt_two_pow h1 h2
    simpa using this
  · omega

theorem crc16_inner_lt (k : Nat) {s : Nat} (h : s < 65536) : crc16_inner k s < 65536 := by
  rw [crc16_inner_eq_iterate]
  induction k with
  | zero => simpa using h
  | succ n ih =>
      rw [Function.iterate_succ_apply']
      exact crcSpecStep_lt ih

theorem crc16val_append_byte (bs : List Nat) (b : Nat) :
    crc16val (bs ++ [b]) = crc16_inner 8 (crc16val bs ^^^ b) := by
  simp [crc16val, List.foldl_append]

theorem crc16val_lt {buf : List Nat} (h : ∀ b ∈ buf, b < 256) : crc16val buf < 65536 := by
  unfold crc16val
  have main : ∀ (l : List Nat) (crc : Nat), crc < 65536 → (∀ b ∈ l, b < 256) →
      l.foldl (fun crc b => crc16_inner 8 (crc ^^^ b)) crc < 65536 := by
    intro l
    induction l with
    | nil => intro crc hc _; simpa using hc
    | cons a t ih =>
        intro crc hc hl
        simp only [List.foldl_cons]
        apply ih
        · apply crc16_inner_lt
          have ha : a < 65536 := by
            have := hl a (by simp)
            omega
          have h1 : crc < 2 ^ 16 := by omega
          have h2 : a < 2 ^ 16 := by omega
          have := Nat.xor_lt_two_pow h1 h2
          simpa using this
        · intro b hb; exact hl b (by simp [hb])
  exact main buf 0 (by norm_num) h

/-- Claim C10: the checksum unit is pure and deterministic, implements the
reflected CRC-16 with polynomial 0xA001, initial register 0, LSB-first
processing and no final xor, serializes as 2 little-endian bytes, maps the
empty input to 0x0000 and the ASCII input "123456789" to 0xBB3D.  (The 16-bit
range is stated for byte-valued inputs, the only ones the source can feed it.) -/
theorem claim_C10_checksum_unit :
    crc16val [] = 0 ∧
    crc16val [49, 50, 51, 52, 53, 54, 55, 56, 57] = 0xBB3D ∧
    (∀ buf : List Nat, calculate_crc16 buf = [crc16val buf % 256, crc16val buf / 256 % 256]) ∧
    (∀ buf₁ buf₂ : List Nat, buf₁ = buf₂ → crc16val buf₁ = crc16val buf₂) ∧
    (∀ buf : List Nat, (∀ b ∈ buf, b < 256) → crc16val buf < 65536) ∧
    (∀ (bs : List Nat) (b : Nat), crc16val (bs ++ [b]) = crcSpecByte (crc16val bs) b) := by
  refine ⟨rfl, by decide, fun buf => rfl, fun a b h => by rw [h], fun buf h => crc16val_lt h, ?_⟩
  intro bs b
  rw [crc16val_append_byte, crcSpecByte, crc16_inner_eq_iterate]

/-- Witness for claim C10 at concrete inputs. -/
theorem claim_C10_checksum_unit_witness :
    crc16val [1, 2, 3] < 65536 ∧ crc16val [10] = crc16val [10] :=
  ⟨claim_C10_checksum_unit.2.2.2.2.1 [1, 2, 3] (by decide),
   claim_C10_checksum_unit.2.2.2.1 [10] [10] rfl⟩

end Ha1g

namespace Ha1g

theorem two_getD_slice (b : List Nat) (i : Nat) (h : i + 2 ≤ b.length) :
    (b.drop i).take 2 = [b.getD i 0, b.getD (i + 1) 0] := by
  have h1 : i < b.length := by omega
  have h2 : i + 1 < b.length := by omega
  rw [List.drop_eq_getElem_cons h1, List.drop_eq_getElem_cons h2,
    List.getD_eq_getElem b 0 h1, List.getD_eq_getElem b 0 h2]
  rfl

theorem validate_packet_iff (b : List Nat) (c : Nat) :
    validate_packet b c = true ↔
      (13 < b.length ∧
       ((if 6 < b.getD 12 0 then (b.getD 12 0 : Int) - 6 else 0) +
          (b.getD 13 0 : Int) * (if 255 < c then (256 : Int) else (c : Int) + 1))
         ≤ (b.length : Int) - 17 ∧
       b.getD (b.length - 3) 0 = crc16val (b.take (b.length - 3)) % 256 ∧
       b.getD (b.length - 2) 0 = crc16val (b.take (b.length - 3)) / 256 % 256) := by
  unfold validate_packet
  by_cases h13 : b.length ≤ 13
  · simp only [if_pos h13]
    constructor
    · intro h; cases h
    · rintro ⟨h, -⟩; omega
  · have hcast : (((if c > 255 then (256 : Nat) else c + 1) : Nat) : Int) =
        (if 255 < c then (256 : Int) else (c : Int) + 1) := by
      split <;> simp
    simp only [if_neg h13, hcast]
    set dl : Int := (if 6 < b.getD 12 0 then (b.getD 12 0 : Int) - 6 else 0) +
        (b.getD 13 0 : Int) * (if 255 < c then (256 : Int) else (c : Int) + 1) with hdl
    by_cases hlow : (b.length : Int) - 17 < dl
    · simp only [if_pos hlow]
      constructor
      · intro h; cases h
      · rintro ⟨-, h, -⟩; omega
    · simp only [if_neg hlow]
      rw [decide_eq_true_eq]
      rw [two_getD_slice b (b.length - 3) (by omega)]
      have e2 : b.length - 3 + 1 = b.length - 2 := by omega
      rw [e2]
      unfold calculate_crc16 toLE2
      simp only [List.cons.injEq, and_true]
      constructor
      · rintro ⟨ha, hb⟩; exact ⟨by omega, by omega, ha, hb⟩
      · rintro ⟨-, -, ha, hb⟩; exact ⟨ha, hb⟩

/-- Claim C5: `validate_packet` rejects every input of length at most 13, and
for longer inputs accepts exactly when the integer length minus 17 is at least
the header-derived lower bound (byte 12 minus 6 when byte 12 exceeds 6, else 0,
plus byte 13 times the chunk-size constant) and the recomputed 16-bit CRC over
all bytes but the last 3 matches, little-endian, the 2 bytes preceding the
final byte. -/
theorem claim_C5_validate_contract (b : List Nat) (c : Nat) :
    (b.length ≤ 13 → validate_packet b c = false) ∧
    (validate_packet b c = true ↔
      (13 < b.length ∧
       ((if 6 < b.getD 12 0 then (b.getD 12 0 : Int) - 6 else 0) +
          (b.getD 13 0 : Int) * (if 255 < c then (256 : Int) else (c : Int) + 1))
         ≤ (b.length : Int) - 17 ∧
       b.getD (b.length - 3) 0 = crc16val (b.take (b.length - 3)) % 256 ∧
       b.getD (b.length - 2) 0 = crc16val (b.take (b.length - 3)) / 256 % 256)) := by
  refine ⟨?_, validate_packet_iff b c⟩
  intro hle
  rcases hv : validate_packet b c with _ | _
  · rfl
  · have := (validate_packet_iff b c).1 hv
    omega

/-- Witness for claim C5: the empty response is rejected. -/
theorem claim_C5_validate_contract_witness : validate_packet [] 1024 = false :=
  (claim_C5_validate_contract [] 1024).1 (by decide)

end Ha1g

namespace Ha1g

theorem set_append_right' {α : Type} (xs : List α) (ys : List α) (k : Nat) (v : α) :
    (xs ++ ys).set (xs.length + k) v = xs ++ ys.set k v := by
  induction xs with
  | nil => simp
  | cons a t ih =>
      have harr : (a :: t).length + k = (t.length + k) + 1 := by simp; omega
      simp only [List.cons_append, harr, List.set_cons_succ, ih]

theorem sendDataPart_length (dt pi dc pc : Nat) (payload : List Nat) :
    (sendDataPart dt pi dc pc payload).length = 20 + payload.length := by
  simp [sendDataPart, magicBytes, toLE2]
  omega

theorem sendDataPart_getD12 (dt pi dc pc : Nat) (payload : List Nat) :
    (sendDataPart dt pi dc pc payload).getD 12 0 = (payload.length + 6) % 65536 % 256 := by
  simp [sendDataPart, magicBytes, toLE2]

theorem sendDataPart_getD13 (dt pi dc pc : Nat) (payload : List Nat) :
    (sendDataPart dt pi dc pc payload).getD 13 0 = (payload.length + 6) % 65536 / 256 % 256 := by
  simp [sendDataPart, magicBytes, toLE2]

theorem crc16_of_bytes (A : List Nat) :
    calculate_crc16 A ++ [255] = [crc16val A % 256, crc16val A / 256 % 256, 255] := by
  simp [calculate_crc16, toLE2]

theorem validate_send_packet (dt pi dc pc : Nat) (payload : List Nat) (c : Nat)
    (h : payload.length + 6 < 65536) :
    validate_packet (get_send_packet_bytes dt pi dc pc payload) c = true := by
  set A := sendDataPart dt pi dc pc payload with hA
  have hlenA : A.length = 20 + payload.length := sendDataPart_length dt pi dc pc payload
  have hpkt : get_send_packet_bytes dt pi dc pc payload = A ++ (calculate_crc16 A ++ [255]) := by
    simp [get_send_packet_bytes, List.append_assoc]
  have hrest : (calculate_crc16 A ++ [255]).length = 3 := by simp [calculate_crc16, toLE2]
  rw [hpkt, validate_packet_iff]
  have hlen : (A ++ (calculate_crc16 A ++ [255])).length = A.length + 3 := by
    simp [hrest]
  have hlen3 : (A ++ (calculate_crc16 A ++ [255])).length - 3 = A.length := by omega
  have hlen2 : (A ++ (calculate_crc16 A ++ [255])).length - 2 = A.length + 1 := by omega
  have htake : (A ++ (calculate_crc16 A ++ [255])).take A.length = A := List.take_left A _
  have h12 : (A ++ (calculate_crc16 A ++ [255])).getD 12 0 = (payload.length + 6) % 256 := by
    rw [List.getD_append _ _ _ _ (by omega), sendDataPart_getD12,
      Nat.mod_eq_of_lt h]
  have h13 : (A ++ (calculate_crc16 A ++ [255])).getD 13 0 = (payload.length + 6) / 256 := by
    rw [List.getD_append _ _ _ _ (by omega), sendDataPart_getD13,
      Nat.mod_eq_of_lt h, Nat.mod_eq_of_lt (by omega)]
  refine ⟨by omega, ?_, ?_, ?_⟩
  · -- length lower bound
    rw [h12, h13, hlen, hlenA]
    have hq : (((payload.length + 6) % 256 : Nat) : Int) +
        256 * (((payload.length + 6) / 256 : Nat) : Int) = (payload.length : Int) + 6 := by
      omega
    have hY0 : (0 : Int) ≤ (((payload.length + 6) % 256 : Nat) : Int) := by positivity
    split_ifs with h6 hc hc
    · -- byte 12 above 6, large chunk
      omega
    · -- byte 12 above 6, small chunk
      have h6' : (6 : Int) < (((payload.length + 6) % 256 : Nat) : Int) := by exact_mod_cast h6
      have hprod : (((payload.length + 6) / 256 : Nat) : Int) * ((c : Int) + 1)
          ≤ (((payload.length + 6) / 256 : Nat) : Int) * 256 :=
        mul_le_mul_of_nonneg_left (by omega) (by positivity)
      push_cast
      push_cast at hprod hq h6'
      linarith
    · -- byte 12 at most 6, large chunk
      omega
    · -- byte 12 at most 6, small chunk
      have hprod : (((payload.length + 6) / 256 : Nat) : Int) * ((c : Int) + 1)
          ≤ (((payload.length + 6) / 256 : Nat) : Int) * 256 :=
        mul_le_mul_of_nonneg_left (by omega) (by positivity)
      push_cast
      push_cast at hprod hq hY0
      linarith
  · rw [hlen3, htake, List.getD_append_right _ _ _ _ (le_refl _), Nat.sub_self,
      crc16_of_bytes]
    rfl
  · rw [hlen2, hlen3, htake, List.getD_append_right _ _ _ _ (by omega), Nat.add_sub_cancel_left,
      crc16_of_bytes]
    rfl

theorem xor_self_eq {a t : Nat} (hx : a ^^^ t = a) : t = 0 := by
  have h2 : a ^^^ (a ^^^ t) = a ^^^ a := congrArg (a ^^^ ·) hx
  rwa [← Nat.xor_assoc, Nat.xor_self, Nat.zero_xor] at h2

theorem validate_send_packet_flip (dt pi dc pc : Nat) (payload : List Nat) (c : Nat)
    (o j : Nat) (ho : o < 2) :
    validate_packet
      (flipBit (get_send_packet_bytes dt pi dc pc payload)
        ((get_send_packet_bytes dt pi dc pc payload).length - 3 + o) j) c = false := by
  set A := sendDataPart dt pi dc pc payload with hA
  have hpkt : get_send_packet_bytes dt pi dc pc payload = A ++ (calculate_crc16 A ++ [255]) := by
    simp [get_send_packet_bytes, List.append_assoc]
  have hrest : (calculate_crc16 A ++ [255]).length = 3 := by simp [calculate_crc16, toLE2]
  have hlen : (A ++ (calculate_crc16 A ++ [255])).length = A.length + 3 := by simp [hrest]
  have hpos : (A ++ (calculate_crc16 A ++ [255])).length - 3 + o = A.length + o := by omega
  set c0 := crc16val A % 256 with hc0
  set c1 := crc16val A / 256 % 256 with hc1
  have hflip : flipBit (A ++ (calculate_crc16 A ++ [255])) (A.length + o) j =
      A ++ ((calculate_crc16 A ++ [255]).set o ((calculate_crc16 A ++ [255]).getD o 0 ^^^ 2 ^ j)) := by
    rw [flipBit, List.getD_append_right _ _ _ _ (by omega), Nat.add_sub_cancel_left,
      set_append_right']
  have hjpos : (0 : Nat) < 2 ^ j := pow_pos (by norm_num) j
  interval_cases o
  · -- flip in the low checksum byte
    rw [hpkt, hpos, hflip, crc16_of_bytes]
    have hset : ([c0, c1, 255].set 0 ([c0, c1, 255].getD 0 0 ^^^ 2 ^ j)) =
        [c0 ^^^ 2 ^ j, c1, 255] := by rfl
    rw [hset]
    rcases hv : validate_packet (A ++ [c0 ^^^ 2 ^ j, c1, 255]) c with _ | _
    · rfl
    · exfalso
      have hiff := (validate_packet_iff (A ++ [c0 ^^^ 2 ^ j, c1, 255]) c).1 hv
      have hlen' : (A ++ [c0 ^^^ 2 ^ j, c1, 255]).length = A.length + 3 := by simp
      have hlen3' : (A ++ [c0 ^^^ 2 ^ j, c1, 255]).length - 3 = A.length := by omega
      have htake' : (A ++ [c0 ^^^ 2 ^ j, c1, 255]).take A.length = A := List.take_left A _
      have heq := hiff.2.2.1
      rw [hlen3', htake', List.getD_append_right _ _ _ _ (le_refl _), Nat.sub_self] at heq
      simp only [List.getD_cons_zero] at heq
      have : (2 : Nat) ^ j = 0 := xor_self_eq (by rw [← hc0] at heq; exact heq)
      omega
  · -- flip in the high checksum byte
    rw [hpkt, hpos, hflip, crc16_of_bytes]
    have hset : ([c0, c1, 255].set 1 ([c0, c1, 255].getD 1 0 ^^^ 2 ^ j)) =
        [c0, c1 ^^^ 2 ^ j, 255] := by rfl
    rw [hset]
    rcases hv : validate_packet (A ++ [c0, c1 ^^^ 2 ^ j, 255]) c with _ | _
    · rfl
    · exfalso
      have hiff := (validate_packet_iff (A ++ [c0, c1 ^^^ 2 ^ j, 255]) c).1 hv
      have hlen' : (A ++ [c0, c1 ^^^ 2 ^ j, 255]).length = A.length + 3 := by simp
      have hlen2' : (A ++ [c0, c1 ^^^ 2 ^ j, 255]).length - 2 = A.length + 1 := by omega
      have htake3' : (A ++ [c0, c1 ^^^ 2 ^ j, 255]).length - 3 = A.length := by omega
      have htake' : (A ++ [c0, c1 ^^^ 2 ^ j, 255]).take A.length = A := List.take_left A _
      have heq := hiff.2.2.2
      rw [hlen2', htake3', htake', List.getD_append_right _ _ _ _ (by omega),
        Nat.add_sub_cancel_left] at heq
      simp only [List.getD_cons_succ, List.getD_cons_zero] at heq
      have : (2 : Nat) ^ j = 0 := xor_self_eq (by rw [← hc1] at heq; exact heq)
      omega

/-- Claim C4: every packet produced by the encoder passes `validate_packet`
(for any chunk-size parameter), and the same packet with a single bit flipped
in either of the two checksum bytes fails it.  The payload bound is the domain
on which the source's `struct.pack "<H"` declared-length field is defined. -/
theorem claim_C4_encode_then_validate (dt pi dc pc : Nat) (payload : List Nat) (c : Nat)
    (h : payload.length + 6 < 65536) :
    validate_packet (get_send_packet_bytes dt pi dc pc payload) c = true ∧
    (∀ o, o < 2 → ∀ j, j < 8 →
      validate_packet
        (flipBit (get_send_packet_bytes dt pi dc pc payload)
          ((get_send_packet_bytes dt pi dc pc payload).length - 3 + o) j) c = false) :=
  ⟨validate_send_packet dt pi dc pc payload c h,
   fun o ho j _ => validate_send_packet_flip dt pi dc pc payload c o j ho⟩

/-- Witness for claim C4: a concrete read announce packet validates, and dies
under a checksum-bit flip. -/
theorem claim_C4_encode_then_validate_witness :
    validate_packet (get_send_packet_bytes 6 0 2 1 [0, 0]) 1024 = true ∧
    validate_packet
      (flipBit (get_send_packet_bytes 6 0 2 1 [0, 0])
        ((get_send_packet_bytes 6 0 2 1 [0, 0]).length - 3 + 1) 5) 1024 = false :=
  ⟨(claim_C4_encode_then_validate 6 0 2 1 [0, 0] 1024 (by decide)).1,
   (claim_C4_encode_then_validate 6 0 2 1 [0, 0] 1024 (by decide)).2 1 (by decide) 5 (by decide)⟩

end Ha1g

namespace Ha1g

set_option maxRecDepth 8000

/-- Claim C6 counterexample: `pkt20` is a validated handshake response (it
passes `validate_packet`), its bytes [14:16] equal 0x00 0x01, yet the
classifier does not return one of the four outcomes — it raises an
`IndexError` reading byte 20 of the 20-byte response. -/
theorem claim_C6_counterexample :
    validate_packet pkt20 1024 = true ∧
    (pkt20.drop 14).take 2 = [0, 1] ∧
    handshake_handle_connect_event hModel pkt20 = .error .indexError := by
  refine ⟨by decide, by decide, by rfl⟩

/-- Claim C6 (amended): for a validated response, the classifier returns
`Wrong` when bytes [14:16] differ from 0x00 0x01; when they match it reads
byte 20 and hence raises an `IndexError` on responses of at most 20 bytes;
on longer responses it returns `PwdWrong` exactly when byte 20 is 1, `Normal`
exactly when byte 20 differs from 1 and bytes [20:20+len(model)] equal the
model name, and `RadioWrong` otherwise. -/
theorem claim_C6_amended (model d : List Nat) (_hv : validate_packet d 1024 = true) :
    ((d.drop 14).take 2 ≠ [0, 1] →
      handshake_handle_connect_event model d = .ok .Wrong) ∧
    ((d.drop 14).take 2 = [0, 1] → d.length ≤ 20 →
      handshake_handle_connect_event model d = .error .indexError) ∧
    ((d.drop 14).take 2 = [0, 1] → 20 < d.length →
      (d.getD 20 0 = 1 → handshake_handle_connect_event model d = .ok .PwdWrong) ∧
      (d.getD 20 0 ≠ 1 → (d.drop 20).take model.length = model →
        handshake_handle_connect_event model d = .ok .Normal) ∧
      (d.getD 20 0 ≠ 1 → (d.drop 20).take model.length ≠ model →
        handshake_handle_connect_event model d = .ok .RadioWrong)) := by
  unfold handshake_handle_connect_event
  refine ⟨fun h14 => by simp [h14], fun h14 hlen => ?_, fun h14 hlen => ?_⟩
  · rw [if_pos h14, dif_neg (by omega)]
  · refine ⟨fun h20 => ?_, fun h20 hm => ?_, fun h20 hm => ?_⟩
    · rw [if_pos h14, dif_pos hlen, if_neg (fun hne => hne h20)]
    · rw [if_pos h14, dif_pos hlen, if_pos h20, if_pos hm]
    · rw [if_pos h14, dif_pos hlen, if_pos h20, if_neg hm]

end Ha1g

namespace Ha1g

set_option maxRecDepth 8000

theorem handshakeRun_firstValid (devA : Nat → List Nat) :
    ∀ (n k : Nat) (lastResp : List Nat) (i : Nat), i < n →
      validate_packet (devA (k + i)) = true →
      (∀ j, j < i → validate_packet (devA (k + j)) = false) →
      handshakeRun devA n k lastResp = (devA (k + i), k + i + 1) := by
  intro n
  induction n with
  | zero => intro k l i hi _ _; omega
  | succ m ih =>
      intro k l i hi hv hprev
      rcases Nat.eq_zero_or_pos i with h0 | hpos
      · subst h0
        rw [Nat.add_zero] at hv
        simp only [handshakeRun]
        rw [if_pos hv]
        simp
      · have hk : validate_packet (devA k) = false := by
          have := hprev 0 hpos
          simpa using this
        simp only [handshakeRun]
        rw [if_neg (by simp [hk])]
        obtain ⟨i', rfl⟩ : ∃ i', i = i' + 1 := ⟨i - 1, by omega⟩
        have hrec := ih (k + 1) (devA k) i' (by omega)
          (by rw [show k + 1 + i' = k + (i' + 1) by omega]; exact hv)
          (fun j hj => by
            rw [show k + 1 + j = k + (j + 1) by omega]
            exact hprev (j + 1) (by omega))
        rw [hrec, show k + 1 + i' = k + (i' + 1) by omega]

theorem handshakeRun_allInvalid (devA : Nat → List Nat) :
    ∀ (n k : Nat) (lastResp : List Nat), 0 < n →
      (∀ j, j < n → validate_packet (devA (k + j)) = false) →
      handshakeRun devA n k lastResp = (devA (k + n - 1), k + n) := by
  intro n
  induction n with
  | zero => intro k l h; omega
  | succ m ih =>
      intro k l _ hall
      have hk : validate_packet (devA k) = false := by simpa using hall 0 (by omega)
      simp only [handshakeRun]
      rw [if_neg (by simp [hk])]
      rcases Nat.eq_zero_or_pos m with h0 | hpos
      · subst h0
        simp [handshakeRun]
      · have hrec := ih (k + 1) (devA k) hpos (fun j hj => by
          rw [show k + 1 + j = k + (j + 1) by omega]
          exact hall (j + 1) (by omega))
        rw [hrec, show k + 1 + m - 1 = k + (m + 1) - 1 by omega,
          show k + 1 + m = k + (m + 1) by omega]

theorem handshakeRun_le (devA : Nat → List Nat) :
    ∀ (n k : Nat) (lastResp : List Nat), (handshakeRun devA n k lastResp).2 ≤ k + n := by
  intro n
  induction n with
  | zero => intro k l; simp [handshakeRun]
  | succ m ih =>
      intro k l
      simp only [handshakeRun]
      split
      · simp
      · have := ih (k + 1) (devA k)
        omega

/-- Claim C7 counterexample: a device whose first response passes validation
but carries echo bytes [14:16] = 0x00 0x02: the handshake stops after a single
send attempt even though the outcome is `Wrong` (the spec's Garbled) — the
loop retries on validation failure, not on a Garbled classification. -/
theorem claim_C7_counterexample :
    handshake hModel (fun _ => pktGarbled) = (.ok .Wrong, 1) ∧ (1 : Nat) < 15 :=
  ⟨by rfl, by omega⟩

/-- Claim C7 (amended): the handshake makes at most 15 send attempts, stops at
the first attempt whose response passes `validate_packet` (classifying that
response, whatever the classification — including the Garbled `Wrong`), and
when no response ever validates it makes exactly 15 attempts and classifies
the final response. -/
theorem claim_C7_amended (model : List Nat) (devA : Nat → List Nat) :
    (handshake model devA).2 ≤ 15 ∧
    (∀ i, i < 15 → validate_packet (devA i) = true →
      (∀ j, j < i → validate_packet (devA j) = false) →
      handshake model devA = (handshake_handle_connect_event model (devA i), i + 1)) ∧
    ((∀ i, i < 15 → validate_packet (devA i) = false) →
      handshake model devA = (handshake_handle_connect_event model (devA 14), 15)) := by
  refine ⟨?_, ?_, ?_⟩
  · have := handshakeRun_le devA 15 0 []
    simp only [handshake]
    omega
  · intro i hi hv hprev
    have hrun := handshakeRun_firstValid devA 15 0 [] i hi (by simpa using hv)
      (fun j hj => by simpa using hprev j hj)
    simp [handshake, hrun]
  · intro hall
    have hrun := handshakeRun_allInvalid devA 15 0 [] (by omega)
      (fun j hj => by simpa using hall j hj)
    simp [handshake, hrun]

/-- Witness for claim C7: against a silent device the handshake makes exactly
15 attempts and reports the Garbled outcome. -/
theorem claim_C7_amended_witness :
    handshake hModel devNullA = (.ok .Wrong, 15) := by
  have h := (claim_C7_amended hModel devNullA).2.2 (fun i _ => by rfl)
  rw [h]
  rfl

/-- Claim C8 counterexample: for the handshake model field "HA1G " the built
packet is 64 bytes, not the 58 = 12 + 2 + 41 + 2 + 1 bytes the claimed layout
(prefix+name+padding totalling 41) implies. -/
theorem claim_C8_counterexample :
    (get_handshake_bytes hModelSp).map List.length = some 64 ∧ (64 : Nat) ≠ 58 :=
  ⟨by rfl, by omega⟩

/-- Claim C8 (amended): for every model name of at most 41 bytes the handshake
packet is exactly the 12-byte magic preamble, the little-endian declared
length 47, the 6-byte prefix, the model name zero-padded so that name plus
padding total 41 bytes (so prefix+name+padding is 47 bytes, matching the
declared length), the 2 checksum bytes computed with the generic packet CRC,
and the sentinel. -/
theorem claim_C8_amended (model : List Nat) (h : model.length ≤ 41) :
    get_handshake_bytes model =
      some ((magicBytes ++ [47, 0] ++ [0, 0, 0, 0, 1, 0] ++ model ++
              List.replicate (41 - model.length) 0) ++
            calculate_crc16 (magicBytes ++ [47, 0] ++ [0, 0, 0, 0, 1, 0] ++ model ++
              List.replicate (41 - model.length) 0) ++ [255]) ∧
    6 + model.length + (41 - model.length) = 47 := by
  have h47 : 6 + model.length + (41 - model.length) = 47 := by omega
  refine ⟨?_, h47⟩
  have hdl : ([0, 0, 0, 0, 1, 0] : List Nat).length + model.length + (41 - model.length) = 47 := by
    simp only [List.length_cons, List.length_nil]
    omega
  simp only [get_handshake_bytes, if_pos h, hdl]
  norm_num [toLE2]

/-- Witness for claim C8 at the concrete model field "HA1G ". -/
theorem claim_C8_amended_witness :
    get_handshake_bytes hModelSp =
      some ((magicBytes ++ [47, 0] ++ [0, 0, 0, 0, 1, 0] ++ hModelSp ++
              List.replicate (41 - hModelSp.length) 0) ++
            calculate_crc16 (magicBytes ++ [47, 0] ++ [0, 0, 0, 0, 1, 0] ++ hModelSp ++
              List.replicate (41 - hModelSp.length) 0) ++ [255]) :=
  (claim_C8_amended hModelSp (by decide)).1

end Ha1g

namespace Ha1g

set_option maxRecDepth 8000

/-- Claim C9 counterexample: region bytes that split into zero pages of the
write-page size are necessarily empty, and on them the uploader raises a
`ValueError` before sending anything, rather than returning success — the
`packet_count == 0` early return in the source is unreachable. -/
theorem claim_C9_counterexample :
    pageCount ([] : List Nat) = 0 ∧
    write_item_current_page_bytes devNull [] 6 [] = (.error .valueError, []) :=
  ⟨by decide, by rfl⟩

/-- Claim C9 (amended): uploading a region whose computed page count is zero
sends no packet (the log is unchanged), but raises a `ValueError` instead of
returning as a no-op success. -/
theorem claim_C9_amended (dev : Device) (item : Nat) (log : List (List Nat))
    (bs : List Nat) (h : pageCount bs = 0) :
    write_item_current_page_bytes dev bs item log = (.error .valueError, log) := by
  have hlen : bs.length = 0 := by
    unfold pageCount write_page_len at h
    omega
  have hb : bs = [] := List.length_eq_zero.mp hlen
  subst hb
  rfl

/-- Witness for claim C9 at empty region bytes. -/
theorem claim_C9_amended_witness :
    write_item_current_page_bytes devNull [] 111 [] = (.error .valueError, []) :=
  claim_C9_amended devNull 111 [] [] (by decide)

/-- Claim C1 counterexample: with a silent device the download body fails with
the generic communication error; when the exit-programming-mode write also
fails, `do_download` raises the exit error instead — the cleanup failure is
raised over the prior error and masks it (Python: an exception raised in a
`finally` block replaces the in-flight exception). -/
theorem claim_C1_counterexample :
    do_download hModel devNullA devNull true = .error .exitRefused ∧
    do_download hModel devNullA devNull false = .error .unknownComm ∧
    Err.exitRefused ≠ Err.unknownComm :=
  ⟨rfl, rfl, by decide⟩

/-- Claim C1 (amended): the exit-programming-mode step is executed on every
path out of both clone operations (it is the `finally` step), but its failure
is not merely reported: the `RadioError` it raises replaces the operation's
original outcome, masking both a prior success and a prior error; when it
succeeds the original outcome stands unchanged. -/
theorem claim_C1_amended (model : List Nat) (devA : Nat → List Nat) (dev : Device)
    (image : List Nat) :
    (do_download model devA dev true = .error .exitRefused ∧
     do_upload model devA dev image true = .error .exitRefused) ∧
    (do_download model devA dev false = download_body model devA dev ∧
     do_upload model devA dev image false = upload_body model devA dev image) :=
  ⟨⟨rfl, rfl⟩, rfl, rfl⟩

end Ha1g

namespace Ha1g

set_option maxRecDepth 8000

theorem respFails_eq (v : Bool) (resp : List Nat) (it : Nat) :
    respFails v resp it =
      !(v && !(decide (14 < resp.length) && decide (resp.getD 14 0 ≠ it))) := by
  cases v <;> simp [respFails]

theorem exchangeOk_pair (dev : Device) (pkt : List Nat) (it : Nat) :
    exchangeOk dev (pkt, it) =
      (validate_packet (dev pkt) &&
        !(decide (14 < (dev pkt).length) && decide ((dev pkt).getD 14 0 ≠ it))) := rfl

theorem respFails_eq_not_exchangeOk (dev : Device) (pkt : List Nat) (it : Nat) :
    respFails (validate_packet (dev pkt)) (dev pkt) it = !(exchangeOk dev (pkt, it)) := by
  rw [respFails_eq, exchangeOk_pair]

theorem writePagesGo_eq_runPlan (dev : Device) (item : Nat) (bs : List Nat) (count : Nat) :
    ∀ (n i : Nat) (log : List (List Nat)),
      writePagesGo dev item bs count i n log =
        runPlan dev (planPagesFrom item bs count i n) log := by
  intro n
  induction n with
  | zero => intro i log; rfl
  | succ m ih =>
      intro i log
      cases hx : exchangeOk dev (get_send_packet_bytes item i 0 count (pageSlice bs i), item) with
      | false =>
          have hr : respFails
              (validate_packet (dev (get_send_packet_bytes item i 0 count (pageSlice bs i))))
              (dev (get_send_packet_bytes item i 0 count (pageSlice bs i))) item = true := by
            rw [respFails_eq_not_exchangeOk, hx]
            rfl
          simp only [writePagesGo, planPagesFrom, runPlan, exchange_block_with_radio]
          rw [if_pos hr, if_neg (by simp [hx])]
      | true =>
          have hr : respFails
              (validate_packet (dev (get_send_packet_bytes item i 0 count (pageSlice bs i))))
              (dev (get_send_packet_bytes item i 0 count (pageSlice bs i))) item = false := by
            rw [respFails_eq_not_exchangeOk, hx]
            rfl
          simp only [writePagesGo, planPagesFrom, runPlan, exchange_block_with_radio]
          rw [if_neg (by simp [hr]), if_pos hx]
          exact ih (i + 1) (log ++ [get_send_packet_bytes item i 0 count (pageSlice bs i)])

theorem write_item_eq_runPlan (dev : Device) (item : Nat) (bs : List Nat)
    (log : List (List Nat)) (h : bs ≠ []) :
    write_item_current_page_bytes dev bs item log =
      runPlan dev (planPagesFrom item bs (pageCount bs) 0 (pageCount bs)) log := by
  unfold write_item_current_page_bytes
  rw [if_neg h]
  have hlen : bs.length ≠ 0 := fun hh => h (List.length_eq_zero.mp hh)
  have hpos : pageCount bs ≠ 0 := by
    unfold pageCount write_page_len
    omega
  rw [if_neg hpos]
  exact writePagesGo_eq_runPlan dev item bs (pageCount bs) (pageCount bs) 0 log

theorem runPlan_append (dev : Device) :
    ∀ (a b : List (List Nat × Nat)) (log : List (List Nat)),
      runPlan dev (a ++ b) log =
        match runPlan dev a log with
        | (.ok _, log') => runPlan dev b log'
        | (.error e, log') => (.error e, log') := by
  intro a
  induction a with
  | nil => intro b log; rfl
  | cons p rest ih =>
      intro b log
      simp only [List.cons_append, runPlan]
      cases hx : exchangeOk dev p <;> simp [hx, ih]

theorem writeGo_eq (dev : Device) (image : List Nat) :
    ∀ (rs : List MemoryRegions) (log : List (List Nat)),
      (∀ r ∈ rs, ¬(r = MemoryRegions.radioHead ∨ r = MemoryRegions.radioInfo ∨
          r = MemoryRegions.radioVer ∨ r = MemoryRegions.zoneData) →
        get_write_item_bytes image r ≠ []) →
      writeGo dev image rs log =
        runPlan dev ((rs.filter fun r => !skipTest r).flatMap (planRegion image)) log := by
  intro rs
  induction rs with
  | nil => intro log _; rfl
  | cons r rest ih =>
      intro log h
      by_cases hskip : r = MemoryRegions.radioHead ∨ r = MemoryRegions.radioInfo ∨
          r = MemoryRegions.radioVer ∨ r = MemoryRegions.zoneData
      · have hp : (!skipTest r) = false := by
          rcases hskip with h0 | h0 | h0 | h0 <;> subst h0 <;> rfl
        rw [writeGo, if_pos hskip, ih log (fun r' hr' hs' => h r' (List.mem_cons_of_mem _ hr') hs'),
          List.filter_cons_of_neg (by simp [hp])]
      · have hp : (!skipTest r) = true := by
          push_neg at hskip
          simp [skipTest, hskip.1, hskip.2.1, hskip.2.2.1, hskip.2.2.2]
        rw [writeGo, if_neg hskip]
        have hne := h r (by simp) hskip
        have hfc : List.filter (fun r => !skipTest r) (r :: rest) =
            r :: List.filter (fun r => !skipTest r) rest := List.filter_cons_of_pos hp
        rw [write_item_eq_runPlan dev r.value (get_write_item_bytes image r) log hne,
          hfc, List.flatMap_cons, runPlan_append]
        have hplan : planRegion image r =
            planPagesFrom r.value (get_write_item_bytes image r)
              (pageCount (get_write_item_bytes image r)) 0
              (pageCount (get_write_item_bytes image r)) := rfl
        rw [← hplan]
        rcases hres : runPlan dev (planRegion image r) log with ⟨res, log'⟩
        cases res <;>
          simp [ih log' (fun r' hr' hs' => h r' (List.mem_cons_of_mem _ hr') hs')]

theorem write_items_eq_runPlan (dev : Device) (image : List Nat)
    (h : ∀ r ∈ writableOrder, get_write_item_bytes image r ≠ []) :
    write_items dev image = runPlan dev (uploadPlan image) [] := by
  have hgo := writeGo_eq dev image regionOrder [] (by
    intro r hr hskip
    apply h
    cases r <;> simp_all [writableOrder, regionOrder])
  rw [write_items, hgo]
  have hf : (regionOrder.filter fun r => !skipTest r) = writableOrder := by rfl
  rw [hf]
  rfl

theorem runPlan_firstFail (dev : Device) :
    ∀ (pl : List (List Nat × Nat)) (log : List (List Nat)) (j : Nat),
      j < pl.length →
      (∀ k, k < j → exchangeOk dev (pl.getD k ([], 0)) = true) →
      exchangeOk dev (pl.getD j ([], 0)) = false →
      runPlan dev pl log = (.error .radioReported, log ++ (pl.take (j + 1)).map Prod.fst) := by
  intro pl
  induction pl with
  | nil => intro log j hj _ _; simp at hj
  | cons p rest ih =>
      intro log j hj hgood hbad
      rcases Nat.eq_zero_or_pos j with h0 | hpos
      · subst h0
        have hp : exchangeOk dev p = false := by simpa using hbad
        simp only [runPlan]
        rw [if_neg (by simp [hp])]
        simp
      · have hp : exchangeOk dev p = true := by
          have := hgood 0 hpos
          simpa using this
        simp only [runPlan]
        rw [if_pos hp]
        obtain ⟨j', rfl⟩ : ∃ j', j = j' + 1 := ⟨j - 1, by omega⟩
        rw [ih (log ++ [p.1]) j' (by simpa using hj)
          (fun k hk => by
            have := hgood (k + 1) (by omega)
            simpa using this)
          (by simpa using hbad)]
        simp

/-- Claim C3: during a full upload, if the responses to the first `j` planned
packets all pass the validate/echo check and the response to planned packet
`j` fails it, the upload raises the communication-failure error and the
packets actually sent are exactly the plan's first `j+1` packets — nothing is
sent for any later page of the failing region or for any subsequent region.
(The nonemptiness hypothesis — every writable region's image slice is nonempty
— holds for any full-size image.) -/
theorem claim_C3_upload_aborts (dev : Device) (image : List Nat) (j : Nat)
    (hne : ∀ r ∈ writableOrder, get_write_item_bytes image r ≠ [])
    (hj : j < (uploadPlan image).length)
    (hgood : ∀ k, k < j → exchangeOk dev ((uploadPlan image).getD k ([], 0)) = true)
    (hbad : exchangeOk dev ((uploadPlan image).getD j ([], 0)) = false) :
    write_items dev image =
      (.error .radioReported, ((uploadPlan image).take (j + 1)).map Prod.fst) := by
  rw [write_items_eq_runPlan dev image hne,
    runPlan_firstFail dev (uploadPlan image) [] j hj hgood hbad]
  simp

theorem planPagesFrom_length (item : Nat) (bs : List Nat) (count : Nat) :
    ∀ (n i : Nat), (planPagesFrom item bs count i n).length = n := by
  intro n
  induction n with
  | zero => intro i; rfl
  | succ m ih => intro i; simp [planPagesFrom, ih]

theorem exchangeOk_devNull (pr : List Nat × Nat) : exchangeOk devNull pr = false := rfl

theorem seg_replicate (n s l : Nat) :
    seg (List.replicate n 0) s l = List.replicate (min l (n - s)) 0 := by
  rw [seg, List.drop_replicate, List.take_replicate]

theorem get_write_item_bytes_eq (all : List Nat) (r : MemoryRegions) :
    get_write_item_bytes all r =
      seg all (MEMORY_REGIONS_RANGES r).1 (MEMORY_REGIONS_RANGES r).2 := by
  rcases hr : MEMORY_REGIONS_RANGES r with ⟨s, l⟩
  simp [get_write_item_bytes, hr]

/-- Witness for claim C3: a silent device fails the very first planned packet
of a full-size zero image, so the upload stops after sending only that packet. -/
theorem claim_C3_upload_aborts_witness :
    write_items devNull (List.replicate 55400 0) =
      (.error .radioReported,
       ((uploadPlan (List.replicate 55400 0)).take 1).map Prod.fst) := by
  have hbs : get_write_item_bytes (List.replicate 55400 0) .settingData =
      List.replicate 100 0 := by
    rw [get_write_item_bytes_eq, seg_replicate]
    congr 1
  have hne : ∀ r ∈ writableOrder, get_write_item_bytes (List.replicate 55400 0) r ≠ [] := by
    intro r hr
    fin_cases hr <;>
      · rw [get_write_item_bytes_eq, seg_replicate]
        apply List.ne_nil_of_length_pos
        rw [List.length_replicate]
        decide
  have hj : 0 < (uploadPlan (List.replicate 55400 0)).length := by
    have hsplit : uploadPlan (List.replicate 55400 0) =
        planRegion (List.replicate 55400 0) .settingData ++
          ([MemoryRegions.channelData, .scanData, .vfoScanData, .alarmData,
            .dTMFData].flatMap (planRegion (List.replicate 55400 0))) := by
      rw [uploadPlan, writableOrder, List.flatMap_cons]
    have hlen1 : (planRegion (List.replicate 55400 0) .settingData).length = 1 := by
      rw [planRegion]
      rw [hbs]
      rw [planPagesFrom_length]
      rw [pageCount, write_page_len, List.length_replicate]
    rw [hsplit, List.length_append, hlen1]
    omega
  exact claim_C3_upload_aborts devNull (List.replicate 55400 0) 0 hne hj
    (fun k hk => absurd hk (by omega)) (exchangeOk_devNull _)

end Ha1g

namespace Ha1g

set_option maxRecDepth 8000

theorem getD_take : ∀ (xs : List Nat) (n i : Nat), i < n → (xs.take n).getD i 0 = xs.getD i 0 := by
  intro xs
  induction xs with
  | nil => intro n i _; simp
  | cons a t ih =>
      intro n i h
      cases n with
      | zero => omega
      | succ m =>
          cases i with
          | zero => simp
          | succ k =>
              simp only [List.take_succ_cons, List.getD_cons_succ]
              exact ih m k (by omega)

theorem getD_drop : ∀ (xs : List Nat) (n i : Nat), (xs.drop n).getD i 0 = xs.getD (n + i) 0 := by
  intro xs
  induction xs with
  | nil => intro n i; simp
  | cons a t ih =>
      intro n i
      cases n with
      | zero => simp
      | succ m =>
          rw [List.drop_succ_cons, show m + 1 + i = (m + i) + 1 by omega, List.getD_cons_succ]
          exact ih m i

theorem setSeg_length (xs d : List Nat) (s : Nat) (hs : s + d.length ≤ xs.length) :
    (setSeg xs s d).length = xs.length := by
  unfold setSeg
  simp only [List.length_append, List.length_take, List.length_drop]
  omega

theorem getD_setSeg_untouched (xs d : List Nat) (s i : Nat)
    (hs : s + d.length ≤ xs.length) (hi : i < s ∨ s + d.length ≤ i) :
    (setSeg xs s d).getD i 0 = xs.getD i 0 := by
  unfold setSeg
  have hts : (xs.take s).length = s := by
    rw [List.length_take]
    omega
  rcases hi with hi | hi
  · rw [List.getD_append _ _ _ _ (by simp [hts]; omega)]
    rw [List.getD_append _ _ _ _ (by omega)]
    exact getD_take xs s i hi
  · have hl : (xs.take s ++ d).length = s + d.length := by
      simp [hts]
    rw [List.getD_append_right _ _ _ _ (by rw [hl]; omega)]
    rw [hl, getD_drop]
    congr 1
    omega

theorem read_item_eq (all bs : List Nat) (r : MemoryRegions) :
    read_item_handle_connect_event all bs r =
      setSeg all (MEMORY_REGIONS_RANGES r).1 (bs.take (MEMORY_REGIONS_RANGES r).2) := by
  rcases hr : MEMORY_REGIONS_RANGES r with ⟨s, l⟩
  simp [read_item_handle_connect_event, hr]

theorem regionBound (r : MemoryRegions) :
    (MEMORY_REGIONS_RANGES r).1 + (MEMORY_REGIONS_RANGES r).2 ≤ memsize := by
  cases r <;> decide

theorem readStep_length (all bs : List Nat) (r : MemoryRegions) (h : all.length = memsize) :
    (read_item_handle_connect_event all bs r).length = memsize := by
  rw [read_item_eq]
  rw [setSeg_length]
  · exact h
  · have hb := regionBound r
    have ht : (bs.take (MEMORY_REGIONS_RANGES r).2).length ≤ (MEMORY_REGIONS_RANGES r).2 := by
      simp [List.length_take]
    omega

theorem readStep_untouched (all bs : List Nat) (r : MemoryRegions) (i : Nat)
    (h : all.length = memsize)
    (hi : i < (MEMORY_REGIONS_RANGES r).1 ∨
      (MEMORY_REGIONS_RANGES r).1 + (MEMORY_REGIONS_RANGES r).2 ≤ i) :
    (read_item_handle_connect_event all bs r).getD i 0 = all.getD i 0 := by
  rw [read_item_eq]
  have hb := regionBound r
  have ht : (bs.take (MEMORY_REGIONS_RANGES r).2).length ≤ (MEMORY_REGIONS_RANGES r).2 := by
    simp [List.length_take]
  apply getD_setSeg_untouched
  · omega
  · omega

theorem readGo_length (dev : Device) :
    ∀ (rs : List MemoryRegions) (acc : List Nat), acc.length = memsize →
      (readGo dev rs acc).length = memsize := by
  intro rs
  induction rs with
  | nil => intro acc h; simpa [readGo]
  | cons r rest ih =>
      intro acc h
      cases hres : get_read_current_packet_bytes dev r.value with
      | error e =>
          simp only [readGo, hres]
          exact ih acc h
      | ok bs =>
          simp only [readGo, hres]
          by_cases hbs : bs = []
          · simp only [if_pos hbs]
            exact ih acc h
          · simp only [if_neg hbs]
            exact ih _ (readStep_length acc bs r h)

theorem readGo_untouched (dev : Device) (i : Nat) :
    ∀ (rs : List MemoryRegions) (acc : List Nat), acc.length = memsize →
      (∀ r ∈ rs, stepSafe dev i r) →
      (readGo dev rs acc).getD i 0 = acc.getD i 0 := by
  intro rs
  induction rs with
  | nil => intro acc _ _; rfl
  | cons r rest ih =>
      intro acc hlen hsafe
      cases hres : get_read_current_packet_bytes dev r.value with
      | error e =>
          simp only [readGo, hres]
          exact ih acc hlen (fun r' hr' => hsafe r' (List.mem_cons_of_mem _ hr'))
      | ok bs =>
          simp only [readGo, hres]
          have hout : i < (MEMORY_REGIONS_RANGES r).1 ∨
              (MEMORY_REGIONS_RANGES r).1 + (MEMORY_REGIONS_RANGES r).2 ≤ i := by
            rcases hsafe r (by simp) with ⟨e, he⟩ | hout
            · rw [hres] at he
              cases he
            · exact hout
          by_cases hbs : bs = []
          · simp only [if_pos hbs]
            exact ih acc hlen (fun r' hr' => hsafe r' (List.mem_cons_of_mem _ hr'))
          · simp only [if_neg hbs]
            rw [ih _ (readStep_length acc bs r hlen)
              (fun r' hr' => hsafe r' (List.mem_cons_of_mem _ hr'))]
            exact readStep_untouched acc bs r i hlen hout

theorem readGo_skip (dev : Device) (r : MemoryRegions) (e : Err)
    (hfail : get_read_current_packet_bytes dev r.value = .error e) :
    ∀ (rs : List MemoryRegions) (acc : List Nat),
      readGo dev rs acc = readGo dev (rs.erase r) acc := by
  intro rs
  induction rs with
  | nil => intro acc; rfl
  | cons s rest ih =>
      intro acc
      by_cases hsr : s = r
      · subst hsr
        rw [List.erase_cons_head]
        simp only [readGo, hfail]
      · rw [List.erase_cons_tail (by simp [hsr])]
        cases hres : get_read_current_packet_bytes dev s.value with
        | error e' =>
            simp only [readGo, hres]
            exact ih acc
        | ok bs =>
            simp only [readGo, hres]
            by_cases hbs : bs = [] <;> simp [hbs, ih]

theorem regionsDisjoint :
    ∀ (r r' : MemoryRegions), r ≠ r' →
      (MEMORY_REGIONS_RANGES r).1 + (MEMORY_REGIONS_RANGES r).2 ≤ (MEMORY_REGIONS_RANGES r').1 ∨
      (MEMORY_REGIONS_RANGES r').1 + (MEMORY_REGIONS_RANGES r').2 ≤ (MEMORY_REGIONS_RANGES r).1 := by
  intro r r' h
  cases r <;> cases r' <;> first | (exact absurd rfl h) | decide

theorem getD_replicate_zero : ∀ (n i : Nat), (List.replicate n (0 : Nat)).getD i 0 = 0 := by
  intro n
  induction n with
  | zero => intro i; rfl
  | succ m ih =>
      intro i
      cases i with
      | zero => rfl
      | succ k =>
          rw [List.replicate_succ, List.getD_cons_succ]
          exact ih k

/-- Claim C2: if a region's packet exchange fails during a full download, the
returned device image still has exactly `_memsize` bytes (no exception
escapes: `read_items` is total), that region's slice is left zero-filled, and
the download is the same as if the failing region were simply dropped from the
catalogue — the remaining regions are processed unchanged. -/
theorem claim_C2_download_best_effort (dev : Device) (r : MemoryRegions) (e : Err)
    (hfail : get_read_current_packet_bytes dev r.value = .error e) :
    (read_items dev).length = memsize ∧
    (∀ i, (MEMORY_REGIONS_RANGES r).1 ≤ i →
      i < (MEMORY_REGIONS_RANGES r).1 + (MEMORY_REGIONS_RANGES r).2 →
      (read_items dev).getD i 0 = 0) ∧
    read_items dev = readGo dev (regionOrder.erase r) (List.replicate memsize 0) := by
  refine ⟨?_, ?_, ?_⟩
  · exact readGo_length dev regionOrder _ (List.length_replicate _ _)
  · intro i h1 h2
    rw [read_items, readGo_untouched dev i regionOrder _ (List.length_replicate _ _) ?_]
    · exact getD_replicate_zero _ _
    · intro r' _
      by_cases hrr : r' = r
      · subst hrr
        exact Or.inl ⟨e, hfail⟩
      · rcases regionsDisjoint r r' (fun hh => hrr hh.symm) with hd | hd
        · exact Or.inr (Or.inl (by omega))
        · exact Or.inr (Or.inr (by omega))
  · exact readGo_skip dev r e hfail regionOrder _

/-- Witness for claim C2: a silent device fails every region; the image stays
the zero buffer of `_memsize` bytes, with the channel region zero-filled. -/
theorem claim_C2_download_best_effort_witness :
    (read_items devNull).length = memsize ∧
    (read_items devNull).getD 3394 0 = 0 ∧
    read_items devNull =
      readGo devNull (regionOrder.erase .channelData) (List.replicate memsize 0) := by
  have h := claim_C2_download_best_effort devNull .channelData .radioReported (by rfl)
  exact ⟨h.1, h.2.1 3394 (by decide) (by decide), h.2.2⟩

end Ha1g

namespace Ha1g

set_option maxRecDepth 8000

/-- Witness for claim C6: a 27-byte validated response whose echo is 0x0001,
byte 20 differs from 1 and bytes [20:24] spell "HA1G" classifies as Accepted. -/
theorem claim_C6_amended_witness :
    handshake_handle_connect_event hModel pktNormal = .ok .Normal := by
  have h := (claim_C6_amended hModel pktNormal (by rfl)).2.2 (by rfl) (by decide)
  exact h.2.1 (by decide) (by rfl)

end Ha1g
